import Mathlib

/-!
Verification of `esque/controller/topic_controller.py` (the topic
state-reconciliation and offset-resolution engine of the esque project).

The controller code under `src/esque/controller/topic_controller.py` is
embedded shallowly below.  External collaborators that the controller calls
(the confluent/pykafka client facades, the per-partition consumers) are
modelled as oracles gathered in a `ClusterEnv` record: every network
interaction the controller performs is one lookup in that record.  Repository
modules referenced by the controller but not part of the analysed sources
(`esque/helpers.py`, `esque/errors.py`, `esque/resources/topic.py`,
`esque/clients/consumer.py`) are modelled from the specification and marked
as such in their doc comments.
-/

/-- Errors of the esque error taxonomy that the controller can surface or
handle.  `messageEmpty` models `MessageEmptyException` (no message within the
consume timeout), `endOfPartitionReached` models
`EndOfPartitionReachedException`, `topicNotFound` models
`TopicNotFoundError`, `assertionError` models a failed Python `assert`,
`adminOperationFailed` and `completionTimeout` model a broker-reported
failure respectively a timeout of an awaited admin-operation future. -/
inductive EsqueError where
  | messageEmpty
  | endOfPartitionReached
  | topicNotFound
  | assertionError
  | adminOperationFailed (code : Nat)
  | completionTimeout
deriving DecidableEq, Repr

/-- A consumed Kafka message as the controller observes it:
`message.offset()` and `message.timestamp()[1]` (milliseconds since epoch).
The controller only ever reads these two attributes plus the partition the
consumer was assigned to. -/
structure Message where
  offset : Nat
  timestamp : Nat
deriving DecidableEq, Repr

/-- Admin-side per-partition metadata (`confluent_topic.partitions[pid]`):
in-sync replica set, leader broker id, full replica set. -/
structure PartitionMeta where
  isrs : List Nat
  leader : Nat
  replicas : List Nat
deriving DecidableEq, Repr

/-- Modelled from the spec: the `Partition` value object of
`esque/resources/topic.py` (not among the analysed sources).  Field order
follows the constructor call in `_get_partition_data`:
`Partition(partition_id, low, high, meta.isrs, meta.leader, meta.replicas,
latest_timestamp)`.  The latest-record timestamp is kept in milliseconds
since epoch (the source divides by 1000.0 to obtain seconds; the instant
denoted is the same). -/
structure Partition where
  partition_id : Nat
  low : Nat
  high : Nat
  isrs : List Nat
  leader : Nat
  replicas : List Nat
  latest_message_timestamp : Option Nat
deriving DecidableEq, Repr

/-- Modelled from the spec: the `Topic` value object of
`esque/resources/topic.py` (not among the analysed sources).  Per spec § 3 a
Topic carries its name, declared or derived partition/replication counts, a
config-key mapping, the partition snapshots and the `is_only_local` flag. -/
structure Topic where
  name : String
  num_partitions : Option Nat
  replication_factor : Option Nat
  config : List (String × String)
  partition_data : List Partition
  is_only_local : Bool
deriving DecidableEq, Repr

/-- `Topic(topic_name)`: a bare local declaration, never synced from the
cluster (`is_only_local = true`, nothing else populated). -/
def mk_local_topic (topic_name : String) : Topic :=
  { name := topic_name
    num_partitions := none
    replication_factor := none
    config := []
    partition_data := []
    is_only_local := true }

/-- The cluster as the controller observes it through its two client
facades.  `topicError name` is the error the admin metadata lookup reports
for `name` (`none` = the topic exists), `adminPartitions` the admin-side
partition metadata, `lowWatermark`/`highWatermark` the consumer-side
watermark maps, `consumeAt name offset pid` the targeted single-record read
used by `_get_partition_data`, `topicConfig` the live topic configuration
and `poll name pid` the stream of outcomes which the per-partition consumer
of `get_offsets_closest_to_timestamp` produces: either a message or a raised
exception. -/
structure ClusterEnv where
  topicError : String → Option Nat
  adminPartitions : String → List (Nat × PartitionMeta)
  lowWatermark : String → Nat → Nat
  highWatermark : String → Nat → Nat
  consumeAt : String → Nat → Nat → Message
  topicConfig : String → List (String × String)
  poll : String → Nat → List (Except EsqueError Message)

/-- Modelled from the spec: `raise_for_kafka_error` of `esque/errors.py`
(not among the analysed sources).  Per spec § 4.1/§ 7 an error reported by
the admin metadata lookup for a topic name is surfaced as
`TopicNotFoundError`. -/
def raise_for_kafka_error (err : Option Nat) : Option EsqueError :=
  err.map fun _ => EsqueError.topicNotFound

/-- `TopicController._get_client_topic`: fetch the admin metadata entry for
`topic_name` and raise via `raise_for_kafka_error` if the cluster reported
an error for that name; otherwise hand back the client-side topic object
(modelled by its partition-metadata table, the only part the controller
reads). -/
def get_client_topic (env : ClusterEnv) (topic_name : String) :
    Except EsqueError (List (Nat × PartitionMeta)) :=
  match raise_for_kafka_error (env.topicError topic_name) with
  | some e => .error e
  | none => .ok (env.adminPartitions topic_name)

/-- `TopicController._get_partition_data`: for every partition id in the
admin metadata build a `Partition` from the watermarks; when
`high > low` consume the single record at offset `high - 1` and record its
timestamp, otherwise leave the latest timestamp absent.  Besides the
partition list the embedding also returns the log of `(offset, partition)`
pairs passed to `consumer.consume`, so that theorems can speak about which
targeted reads the code performs. -/
def get_partition_data (parts : List (Nat × PartitionMeta))
    (low high : Nat → Nat) (consume : Nat → Nat → Message) :
    List Partition × List (Nat × Nat) :=
  match parts with
  | [] => ([], [])
  | (pid, meta) :: rest =>
    let l := low pid
    let h := high pid
    let lt : Option Nat := if h > l then some ((consume (h - 1) pid).timestamp) else none
    let log : List (Nat × Nat) := if h > l then [(h - 1, pid)] else []
    let r := get_partition_data rest low high consume
    (Partition.mk pid l h meta.isrs meta.leader meta.replicas lt :: r.1, log ++ r.2)

/-- `TopicController.update_from_cluster`: fetch the client topic twice
(once per client type, both go through `_get_client_topic` and hence through
the error check), then populate `partition_data`, `config` and clear
`is_only_local`.  The derived `num_partitions`/`replication_factor` of a
cluster-sourced Topic are modelled from the spec (§ 3, § 8: partition count =
number of partition snapshots, replication factor = size of a partition's
replica set), since `esque/resources/topic.py` is not among the analysed
sources. -/
def update_from_cluster (env : ClusterEnv) (topic : Topic) : Except EsqueError Topic := do
  let confluentParts ← get_client_topic env topic.name
  let _pykafkaTopic ← get_client_topic env topic.name
  let pd := (get_partition_data confluentParts (env.lowWatermark topic.name)
      (env.highWatermark topic.name) (env.consumeAt topic.name)).1
  .ok { topic with
        partition_data := pd
        config := env.topicConfig topic.name
        is_only_local := false
        num_partitions := some pd.length
        replication_factor := some ((pd.head?.map fun q => q.replicas.length).getD 0) }

/-- `TopicController.get_cluster_topic`: fetch an existing topic from the
cluster based on its name. -/
def get_cluster_topic (env : ClusterEnv) (topic_name : String) : Except EsqueError Topic :=
  update_from_cluster env (mk_local_topic topic_name)

/-- `TopicController.get_local_topic`. -/
def get_local_topic (topic_name : String) : Topic :=
  mk_local_topic topic_name

/-- The value of the cluster topic that a successful `get_cluster_topic`
returns (factored out of `update_from_cluster` for use in theorem
statements). -/
def cluster_topic_of (env : ClusterEnv) (topic_name : String) : Topic :=
  let pd := (get_partition_data (env.adminPartitions topic_name)
      (env.lowWatermark topic_name) (env.highWatermark topic_name)
      (env.consumeAt topic_name)).1
  { name := topic_name
    num_partitions := some pd.length
    replication_factor := some ((pd.head?.map fun q => q.replicas.length).getD 0)
    config := env.topicConfig topic_name
    partition_data := pd
    is_only_local := false }

/-- The comparison the offset scan performs on a consumed message:
`datetime.datetime.fromtimestamp(int(message.timestamp()[1] / 1000.0),
timezone.utc) < timestamp_limit`.  The message timestamp (milliseconds) is
truncated to whole seconds before the comparison; the target instant is kept
in milliseconds.  (`int(ms / 1000.0)` equals `ms // 1000` for every
realistic epoch-millisecond value, so Nat division is faithful.) -/
def msg_before_limit (limitMs : Nat) (m : Message) : Bool :=
  m.timestamp / 1000 * 1000 < limitMs

/-- The per-partition polling loop of
`TopicController.get_offsets_closest_to_timestamp` (source lines 133-151),
driven by the stream of consume outcomes: `retry` is `max_retry_count`
(initially 5), `acc` the current entry of `partition_offsets` for this
partition (initially 0).  `MessageEmptyException` decrements the budget and
stops the loop once it reaches zero, `EndOfPartitionReachedException` stops
the loop, any other exception propagates, and a consumed message whose
second-truncated timestamp is before the target records `offset + 1`. -/
def scanPartition (limitMs : Nat) : Nat → Nat → List (Except EsqueError Message) →
    Except EsqueError Nat
  | _, acc, [] => .ok acc
  | retry, acc, .error .messageEmpty :: rest =>
    if retry - 1 = 0 then .ok acc else scanPartition limitMs (retry - 1) acc rest
  | _, acc, .error .endOfPartitionReached :: _ => .ok acc
  | _, _, .error e :: _ => .error e
  | retry, acc, .ok m :: rest =>
    if msg_before_limit limitMs m then scanPartition limitMs retry (m.offset + 1) rest
    else scanPartition limitMs retry acc rest

/-- The messages the polling loop actually consumes (reaches the `else`
branch with) before it stops, given the same outcome stream and retry
budget as `scanPartition`. -/
def consumedMessages : Nat → List (Except EsqueError Message) → List Message
  | _, [] => []
  | retry, .error .messageEmpty :: rest =>
    if retry - 1 = 0 then [] else consumedMessages (retry - 1) rest
  | _, .error .endOfPartitionReached :: _ => []
  | _, .error _ :: _ => []
  | retry, .ok m :: rest => m :: consumedMessages retry rest

/-- An outcome that a quiet but healthy consumer can produce: a message, a
consume timeout or end of partition (the only outcomes
`consume_single_message` is specified to produce, spec § 6). -/
def quiet_event : Except EsqueError Message → Bool
  | .ok _ => true
  | .error .messageEmpty => true
  | .error .endOfPartitionReached => true
  | .error _ => false

/-- One recording step of the scan: a message whose truncated timestamp is
before the target overwrites the candidate offset with `offset + 1`. -/
def record_step (limitMs : Nat) (acc : Nat) (m : Message) : Nat :=
  if msg_before_limit limitMs m then m.offset + 1 else acc

/-- Spec-side description of the per-partition result (spec § 4.2/§ 8,
with the comparison at the second granularity the code uses): `offset + 1`
of the last consumed message whose second-truncated timestamp is strictly
earlier than the target instant, and 0 when no consumed message qualifies. -/
def spec_offset_for (limitMs : Nat) (msgs : List Message) : Nat :=
  match msgs.reverse.find? (msg_before_limit limitMs) with
  | some m => m.offset + 1
  | none => 0

/-- Spec-side description of the per-partition result with the literal
strict comparison of the claim (milliseconds against milliseconds, no
truncation): `offset + 1` of the last consumed message whose timestamp is
strictly earlier than the target instant, 0 when none qualifies. -/
def spec_offset_strict (limitMs : Nat) (msgs : List Message) : Nat :=
  match msgs.reverse.find? (fun m => m.timestamp < limitMs) with
  | some m => m.offset + 1
  | none => 0

/-- The per-partition loop of `get_offsets_closest_to_timestamp` executed
for every partition id in order, pairing each partition with its final
`partition_offsets` entry. -/
def get_offsets_loop (limitMs : Nat) (poll : Nat → List (Except EsqueError Message)) :
    List Nat → Except EsqueError (List (Nat × Nat))
  | [] => .ok []
  | p :: ps => do
    let v ← scanPartition limitMs 5 0 (poll p)
    let rest ← get_offsets_loop limitMs poll ps
    .ok ((p, v) :: rest)

/-- `TopicController.get_offsets_closest_to_timestamp`: resolve the topic
(through `get_cluster_topic`, so an unknown topic surfaces
`TopicNotFoundError`), initialise every partition's offset to 0, then run
the bounded-retry polling loop on one dedicated consumer per partition.
The process-unique group id and the consumer construction have no
observable effect on the returned mapping and are not modelled. -/
def get_offsets_closest_to_timestamp (env : ClusterEnv) (topic_name : String)
    (limitMs : Nat) : Except EsqueError (List (Nat × Nat)) := do
  let topic ← get_cluster_topic env topic_name
  get_offsets_loop limitMs (env.poll topic_name)
    (topic.partition_data.map fun pt => pt.partition_id)

/-- A value as the untyped Python diff machinery sees it: `None`, an int or
a string. -/
inductive PyVal where
  | vnone
  | vint (n : Nat)
  | vstr (s : String)
deriving DecidableEq, Repr

/-- An optional partition/replica count as a Python value. -/
def optNatVal : Option Nat → PyVal
  | none => .vnone
  | some n => .vint n

/-- An optional configuration value (`dict.get`) as a Python value. -/
def optStrVal : Option String → PyVal
  | none => .vnone
  | some s => .vstr s

/-- Modelled from the spec: `TopicDiff.set_diff` of
`esque/resources/topic.py` (not among the analysed sources).  Per spec § 3
a TopicDiff maps each inspected field name to its `(cluster value, local
value)` pair, populated only for fields that differ; output order is the
order in which the fields are inspected. -/
def set_diff (d : List (String × PyVal × PyVal)) (field : String)
    (oldv newv : PyVal) : List (String × PyVal × PyVal) :=
  if oldv = newv then d else d ++ [(field, oldv, newv)]

/-- The field comparisons of `TopicController.diff_with_cluster` (source
lines 196-203): `num_partitions`, `replication_factor`, then every key of
the cluster topic's configuration against `local_topic.config.get(name)`. -/
def diff_fields (ct lt : Topic) : List (String × PyVal × PyVal) :=
  let d := set_diff [] "num_partitions" (optNatVal ct.num_partitions) (optNatVal lt.num_partitions)
  let d := set_diff d "replication_factor" (optNatVal ct.replication_factor)
    (optNatVal lt.replication_factor)
  ct.config.foldl
    (fun acc kv => set_diff acc kv.1 (PyVal.vstr kv.2) (optStrVal (List.lookup kv.1 lt.config))) d

/-- The list of (field, cluster value, local value) triples that
`diff_with_cluster` inspects, in inspection order: the two structural
fields, then every key present in the cluster configuration with the local
value looked up in the local topic's mapping (absent keys compare as
unset). -/
def diff_field_triples (ct lt : Topic) : List (String × PyVal × PyVal) :=
  ("num_partitions", optNatVal ct.num_partitions, optNatVal lt.num_partitions) ::
  ("replication_factor", optNatVal ct.replication_factor, optNatVal lt.replication_factor) ::
  ct.config.map fun kv => (kv.1, PyVal.vstr kv.2, optStrVal (List.lookup kv.1 lt.config))

/-- Whether an inspected field's cluster and local values differ — the
membership test for the diff. -/
def differs (e : String × PyVal × PyVal) : Bool :=
  decide (e.2.1 ≠ e.2.2)

/-- `TopicController.diff_with_cluster`: assert that the argument is a
local-only topic (a cluster-sourced argument is a programming error and
raises `AssertionError` before any cluster access), then fetch the cluster
counterpart and compare field by field. -/
def diff_with_cluster (env : ClusterEnv) (lt : Topic) :
    Except EsqueError (List (String × PyVal × PyVal)) :=
  if lt.is_only_local then
    (get_cluster_topic env lt.name).map fun ct => diff_fields ct lt
  else .error .assertionError

/-- The name pipeline of `TopicController.list_topics` (source lines
62-69): list all names from the client, apply the regex filter when a
non-empty search string is given (Python truthiness: `None` and the empty
string both skip the filter), drop names with the reserved internal prefix
when `hide_internal` is set, and sort when `sort` is set.  `rmatch pat n`
models the truthiness of `re.match(pat, n)` (the regex engine is an
external library). -/
def list_topic_names (allNames : List String) (search_string : Option String)
    (sort hide_internal : Bool) (rmatch : String → String → Bool) : List String :=
  let n1 := match search_string with
    | none => allNames
    | some pat => if pat = "" then allNames else allNames.filter (rmatch pat)
  let n2 := if hide_internal then n1.filter (fun t => !t.startsWith "__") else n1
  if sort then n2.mergeSort (fun a b => decide (a ≤ b)) else n2

/-- `TopicController.list_topics` (source lines 53-75): compute the
filtered, sorted name list, then map each surviving name through either the
full cluster fetch (`get_cluster_topic`) or the bare local construction
(`get_local_topic`), per the caller's choice.  The two fetches are passed
as functions so theorems can state that they are applied exactly to the
surviving names. -/
def list_topics {α : Type} (allNames : List String) (search_string : Option String)
    (sort hide_internal : Bool) (rmatch : String → String → Bool)
    (get_topic_objects : Bool) (fetchCluster fetchLocal : String → α) : List α :=
  let topic_names := list_topic_names allNames search_string sort hide_internal rmatch
  if get_topic_objects then topic_names.map fetchCluster else topic_names.map fetchLocal

/-- Outcome of an admin-operation completion future once awaited: resolved
successfully, resolved with a broker-reported error, or not resolved within
the operation timeout. -/
inductive FutureOutcome where
  | success
  | brokerError (code : Nat)
  | timeout
deriving DecidableEq, Repr

/-- Modelled from the spec: `ensure_kafka_future_done` of
`esque/helpers.py` (not among the analysed sources).  Per spec § 5/§ 7 it
awaits a completion future and surfaces a broker-reported failure as
`AdminOperationFailedError` and a missed operation timeout as
`CompletionTimeoutError`; on success it returns normally. -/
def ensure_kafka_future_done : FutureOutcome → Option EsqueError
  | .success => none
  | .brokerError code => some (.adminOperationFailed code)
  | .timeout => some .completionTimeout

/-- The configuration value object handed to the controller: the
process-wide defaults for partition count and replication factor. -/
structure EsqueConfig where
  default_num_partitions : Nat
  default_replication_factor : Nat
deriving DecidableEq, Repr

/-- The create request (`confluent_kafka.cimpl.NewTopic`) the controller
builds per topic. -/
structure NewTopic where
  name : String
  num_partitions : Nat
  replication_factor : Nat
  config : List (String × String)
deriving DecidableEq, Repr

/-- The request construction inside `create_topics`: a topic's declared
partition count and replication factor are used when present
(`is not None`), the configured defaults otherwise. -/
def toNewTopic (cfg : EsqueConfig) (t : Topic) : NewTopic :=
  { name := t.name
    num_partitions := t.num_partitions.getD cfg.default_num_partitions
    replication_factor := t.replication_factor.getD cfg.default_replication_factor
    config := t.config }

/-- The body of `TopicController.create_topics` (inside the cache
decorator): for each topic build the request, submit it and block on the
completion future; an error surfaced by `ensure_kafka_future_done`
propagates out of the loop.  Returns the submitted requests together with
the surfaced error, if any. -/
def create_topics_inner (cfg : EsqueConfig) (broker : NewTopic → FutureOutcome) :
    List Topic → List NewTopic × Option EsqueError
  | [] => ([], none)
  | t :: ts =>
    let nt := toNewTopic cfg t
    match ensure_kafka_future_done (broker nt) with
    | some e => ([nt], some e)
    | none =>
      let r := create_topics_inner cfg broker ts
      (nt :: r.1, r.2)

/-- The configuration-alteration resource
(`ConfigResource(ConfigResource.Type.TOPIC, topic.name, topic.config)`). -/
structure ConfigResource where
  name : String
  config : List (String × String)
deriving DecidableEq, Repr

/-- The body of `TopicController.alter_configs` (inside the cache
decorator): one configuration resource per topic, each awaited; an error
propagates out of the loop. -/
def alter_configs_inner (broker : ConfigResource → FutureOutcome) :
    List Topic → List ConfigResource × Option EsqueError
  | [] => ([], none)
  | t :: ts =>
    let cr : ConfigResource := ⟨t.name, t.config⟩
    match ensure_kafka_future_done (broker cr) with
    | some e => ([cr], some e)
    | none =>
      let r := alter_configs_inner broker ts
      (cr :: r.1, r.2)

/-- The body of `TopicController.delete_topic` (inside the cache
decorator): submit the deletion and block on its completion future. -/
def delete_topic_inner (broker : String → FutureOutcome) (t : Topic) :
    Unit × Option EsqueError :=
  ((), ensure_kafka_future_done (broker t.name))

/-- Modelled from the spec: the `invalidate_cache_after` decorator of
`esque/helpers.py` (not among the analysed sources).  Per spec § 4.4/§ 9 it
wraps a mutating operation in a try/finally-equivalent that invalidates the
process-local cluster-metadata cache on every exit path, success or
failure, and re-raises any error unchanged.  The embedding pairs the
operation's outcome (payload and surfaced error, both unchanged) with the
cache-validity flag as of the call's return, which is always `false`. -/
def invalidate_cache_after {α : Type} (result : α × Option EsqueError) :
    (α × Option EsqueError) × Bool :=
  (result, false)

/-- `TopicController.create_topics` with its `@invalidate_cache_after`
decorator. -/
def create_topics (cfg : EsqueConfig) (broker : NewTopic → FutureOutcome)
    (topics : List Topic) : (List NewTopic × Option EsqueError) × Bool :=
  invalidate_cache_after (create_topics_inner cfg broker topics)

/-- `TopicController.alter_configs` with its `@invalidate_cache_after`
decorator. -/
def alter_configs (broker : ConfigResource → FutureOutcome)
    (topics : List Topic) : (List ConfigResource × Option EsqueError) × Bool :=
  invalidate_cache_after (alter_configs_inner broker topics)

/-- `TopicController.delete_topic` with its `@invalidate_cache_after`
decorator. -/
def delete_topic (broker : String → FutureOutcome) (t : Topic) :
    (Unit × Option EsqueError) × Bool :=
  invalidate_cache_after (delete_topic_inner broker t)

/-- Spec-side description of the error `create_topics` surfaces: the first
broker-reported failure or completion timeout over the topics in order,
`none` when every create succeeded. -/
def first_create_error (cfg : EsqueConfig) (broker : NewTopic → FutureOutcome) :
    List Topic → Option EsqueError
  | [] => none
  | t :: ts =>
    match ensure_kafka_future_done (broker (toNewTopic cfg t)) with
    | some e => some e
    | none => first_create_error cfg broker ts

/-- Concrete single-partition environment whose partition 0 holds one
record at offset 0 with timestamp 1500 ms; used to evaluate the resolver at
the sub-second target instant 1200 ms. -/
def cEnvC1 : ClusterEnv :=
  { topicError := fun _ => none
    adminPartitions := fun _ => [(0, ⟨[1], 1, [1]⟩)]
    lowWatermark := fun _ _ => 0
    highWatermark := fun _ _ => 1
    consumeAt := fun _ off _ => ⟨off, 1500⟩
    topicConfig := fun _ => []
    poll := fun _ _ => [Except.ok ⟨0, 1500⟩, Except.error EsqueError.endOfPartitionReached] }

/-- Concrete two-partition environment for evaluating the resolver:
partition 0 yields a qualifying record, a transient timeout and a
non-qualifying record before its end; partition 1 is empty. -/
def wEnvC1 : ClusterEnv :=
  { topicError := fun _ => none
    adminPartitions := fun _ => [(0, ⟨[1], 1, [1]⟩), (1, ⟨[1], 1, [1]⟩)]
    lowWatermark := fun _ _ => 0
    highWatermark := fun _ p => if p = 0 then 2 else 0
    consumeAt := fun _ off _ => ⟨off, 5000⟩
    topicConfig := fun _ => []
    poll := fun _ p =>
      if p = 0 then
        [Except.ok ⟨0, 5000⟩, Except.error EsqueError.messageEmpty,
         Except.ok ⟨1, 50000⟩, Except.error EsqueError.endOfPartitionReached]
      else [Except.error EsqueError.endOfPartitionReached] }

/-- Concrete single-partition environment whose topic configuration holds
two keys; used to evaluate the diff engine. -/
def wEnvC5 : ClusterEnv :=
  { topicError := fun _ => none
    adminPartitions := fun _ => [(0, ⟨[1], 1, [1]⟩)]
    lowWatermark := fun _ _ => 0
    highWatermark := fun _ _ => 0
    consumeAt := fun _ off _ => ⟨off, 0⟩
    topicConfig := fun _ => [("cleanup.policy", "delete"), ("retention.ms", "100")]
    poll := fun _ _ => [] }

/-- Local topic declaration matching `wEnvC5`'s cluster topic except on the
single configuration key `cleanup.policy`. -/
def wLocalC5 : Topic :=
  { name := "t"
    num_partitions := some 1
    replication_factor := some 1
    config := [("cleanup.policy", "compact"), ("retention.ms", "100")]
    partition_data := []
    is_only_local := true }

/-- Concrete prefix matcher standing in for the regex engine in witnesses. -/
def wMatch (pat n : String) : Bool :=
  n.startsWith pat

/-- Concrete environment whose admin metadata reports an error (code 3,
unknown topic) for every topic name. -/
def wEnvC8 : ClusterEnv :=
  { topicError := fun _ => some 3
    adminPartitions := fun _ => []
    lowWatermark := fun _ _ => 0
    highWatermark := fun _ _ => 0
    consumeAt := fun _ off _ => ⟨off, 0⟩
    topicConfig := fun _ => []
    poll := fun _ _ => [] }

/-- A cluster-sourced topic (`is_only_local = false`), an invalid argument
for `diff_with_cluster`. -/
def wTopicC9 : Topic :=
  { name := "t"
    num_partitions := some 1
    replication_factor := some 1
    config := []
    partition_data := []
    is_only_local := false }

/-! ## Helper lemmas about the offset scan -/

theorem scan_eq_fold_consumed (limitMs : Nat) :
    ∀ (events : List (Except EsqueError Message)) (retry acc : Nat),
      events.all quiet_event = true →
      scanPartition limitMs retry acc events =
        Except.ok (List.foldl (record_step limitMs) acc (consumedMessages retry events)) := by
  intro events
  induction events with
  | nil => intro retry acc _; rfl
  | cons e rest ih =>
    intro retry acc h
    rw [List.all_cons, Bool.and_eq_true] at h
    cases e with
    | ok m =>
      have e2 : consumedMessages retry (Except.ok m :: rest) = m :: consumedMessages retry rest := rfl
      by_cases hb : msg_before_limit limitMs m = true
      · have e1 : scanPartition limitMs retry acc (Except.ok m :: rest) =
            scanPartition limitMs retry (m.offset + 1) rest := by
          simp [scanPartition, hb]
        have e3 : record_step limitMs acc m = m.offset + 1 := by simp [record_step, hb]
        rw [e1, e2, List.foldl_cons, e3]
        exact ih _ _ h.2
      · have e1 : scanPartition limitMs retry acc (Except.ok m :: rest) =
            scanPartition limitMs retry acc rest := by
          simp [scanPartition, hb]
        have e3 : record_step limitMs acc m = acc := by simp [record_step, hb]
        rw [e1, e2, List.foldl_cons, e3]
        exact ih _ _ h.2
    | error err =>
      cases err with
      | messageEmpty =>
        by_cases hr : retry - 1 = 0
        · have e1 : scanPartition limitMs retry acc (Except.error EsqueError.messageEmpty :: rest) =
              Except.ok acc := by simp [scanPartition, hr]
          have e2 : consumedMessages retry (Except.error EsqueError.messageEmpty :: rest) = [] := by
            simp [consumedMessages, hr]
          rw [e1, e2]
          rfl
        · have e1 : scanPartition limitMs retry acc (Except.error EsqueError.messageEmpty :: rest) =
              scanPartition limitMs (retry - 1) acc rest := by simp [scanPartition, hr]
          have e2 : consumedMessages retry (Except.error EsqueError.messageEmpty :: rest) =
              consumedMessages (retry - 1) rest := by simp [consumedMessages, hr]
          rw [e1, e2]
          exact ih _ _ h.2
      | endOfPartitionReached => rfl
      | topicNotFound => simp [quiet_event] at h
      | assertionError => simp [quiet_event] at h
      | adminOperationFailed code => simp [quiet_event] at h
      | completionTimeout => simp [quiet_event] at h

theorem foldl_record_eq_find (limitMs : Nat) :
    ∀ (msgs : List Message) (acc : Nat),
      List.foldl (record_step limitMs) acc msgs =
        match msgs.reverse.find? (msg_before_limit limitMs) with
        | some m => m.offset + 1
        | none => acc := by
  intro msgs
  induction msgs with
  | nil => intro acc; rfl
  | cons m ms ih =>
    intro acc
    rw [List.foldl_cons, ih, List.reverse_cons, List.find?_append]
    cases hf : ms.reverse.find? (msg_before_limit limitMs) with
    | some x => simp [Option.or]
    | none =>
      by_cases hb : msg_before_limit limitMs m = true
      · simp [Option.or, List.find?, hb, record_step]
      · simp [Option.or, List.find?, hb, record_step]

theorem spec_offset_for_eq_foldl (limitMs : Nat) (msgs : List Message) :
    spec_offset_for limitMs msgs = List.foldl (record_step limitMs) 0 msgs := by
  rw [foldl_record_eq_find]
  rfl

theorem scan_append_msgs (limitMs : Nat) :
    ∀ (msgs : List Message) (retry acc : Nat) (rest : List (Except EsqueError Message)),
      scanPartition limitMs retry acc (msgs.map Except.ok ++ rest) =
        scanPartition limitMs retry (List.foldl (record_step limitMs) acc msgs) rest := by
  intro msgs
  induction msgs with
  | nil => intro retry acc rest; rfl
  | cons m ms ih =>
    intro retry acc rest
    rw [List.map_cons, List.cons_append, List.foldl_cons]
    by_cases hb : msg_before_limit limitMs m = true
    · have e1 : scanPartition limitMs retry acc (Except.ok m :: (ms.map Except.ok ++ rest)) =
          scanPartition limitMs retry (m.offset + 1) (ms.map Except.ok ++ rest) := by
        simp [scanPartition, hb]
      have e3 : record_step limitMs acc m = m.offset + 1 := by simp [record_step, hb]
      rw [e1, e3, ih]
    · have e1 : scanPartition limitMs retry acc (Except.ok m :: (ms.map Except.ok ++ rest)) =
          scanPartition limitMs retry acc (ms.map Except.ok ++ rest) := by
        simp [scanPartition, hb]
      have e3 : record_step limitMs acc m = acc := by simp [record_step, hb]
      rw [e1, e3, ih]

theorem scan_after_empty_5 (limitMs acc : Nat) (rest : List (Except EsqueError Message)) :
    scanPartition limitMs 5 acc (Except.error EsqueError.messageEmpty :: rest) =
      scanPartition limitMs 4 acc rest := rfl

theorem scan_after_empty_4 (limitMs acc : Nat) (rest : List (Except EsqueError Message)) :
    scanPartition limitMs 4 acc (Except.error EsqueError.messageEmpty :: rest) =
      scanPartition limitMs 3 acc rest := rfl

theorem scan_after_empty_3 (limitMs acc : Nat) (rest : List (Except EsqueError Message)) :
    scanPartition limitMs 3 acc (Except.error EsqueError.messageEmpty :: rest) =
      scanPartition limitMs 2 acc rest := rfl

theorem scan_after_empty_2 (limitMs acc : Nat) (rest : List (Except EsqueError Message)) :
    scanPartition limitMs 2 acc (Except.error EsqueError.messageEmpty :: rest) =
      scanPartition limitMs 1 acc rest := rfl

theorem scan_after_empty_1 (limitMs acc : Nat) (rest : List (Except EsqueError Message)) :
    scanPartition limitMs 1 acc (Except.error EsqueError.messageEmpty :: rest) =
      Except.ok acc := rfl

/-! ## Helper lemmas about the snapshot builder and the resolver -/

theorem get_partition_data_fst (low high : Nat → Nat) (consume : Nat → Nat → Message) :
    ∀ (parts : List (Nat × PartitionMeta)),
      (get_partition_data parts low high consume).1 =
        parts.map fun pm =>
          Partition.mk pm.1 (low pm.1) (high pm.1) pm.2.isrs pm.2.leader pm.2.replicas
            (if high pm.1 > low pm.1 then some ((consume (high pm.1 - 1) pm.1).timestamp)
             else none) := by
  intro parts
  induction parts with
  | nil => rfl
  | cons head rest ih =>
    obtain ⟨pid, meta⟩ := head
    simp only [get_partition_data, List.map_cons]
    rw [ih]

theorem get_partition_data_snd (low high : Nat → Nat) (consume : Nat → Nat → Message) :
    ∀ (parts : List (Nat × PartitionMeta)),
      (get_partition_data parts low high consume).2 =
        (parts.filter fun pm => decide (high pm.1 > low pm.1)).map
          fun pm => (high pm.1 - 1, pm.1) := by
  intro parts
  induction parts with
  | nil => rfl
  | cons head rest ih =>
    obtain ⟨pid, meta⟩ := head
    by_cases hgt : high pid > low pid
    · simp only [get_partition_data, List.filter_cons]
      rw [ih]
      simp [hgt]
    · simp only [get_partition_data, List.filter_cons]
      rw [ih]
      simp [hgt]

theorem get_cluster_topic_ok (env : ClusterEnv) (topic_name : String)
    (h : env.topicError topic_name = none) :
    get_cluster_topic env topic_name = Except.ok (cluster_topic_of env topic_name) := by
  simp only [get_cluster_topic, update_from_cluster, get_client_topic, raise_for_kafka_error, h,
    Option.map_none', mk_local_topic, cluster_topic_of]
  rfl

theorem get_cluster_topic_notfound (env : ClusterEnv) (topic_name : String) (code : Nat)
    (h : env.topicError topic_name = some code) :
    get_cluster_topic env topic_name = Except.error EsqueError.topicNotFound := by
  unfold get_cluster_topic update_from_cluster get_client_topic
  rw [show (mk_local_topic topic_name).name = topic_name from rfl, h]
  rfl

theorem get_offsets_loop_ok (limitMs : Nat) (poll : Nat → List (Except EsqueError Message)) :
    ∀ (pids : List Nat),
      (∀ p ∈ pids, (poll p).all quiet_event = true) →
      get_offsets_loop limitMs poll pids =
        Except.ok (pids.map fun p =>
          (p, spec_offset_for limitMs (consumedMessages 5 (poll p)))) := by
  intro pids
  induction pids with
  | nil => intro _; rfl
  | cons p ps ih =>
    intro h
    have hp : (poll p).all quiet_event = true := h p (List.mem_cons_self p ps)
    have hs : scanPartition limitMs 5 0 (poll p) =
        Except.ok (spec_offset_for limitMs (consumedMessages 5 (poll p))) := by
      rw [scan_eq_fold_consumed limitMs (poll p) 5 0 hp, spec_offset_for_eq_foldl]
    have ht := ih fun q hq => h q (List.mem_cons_of_mem p hq)
    simp only [get_offsets_loop, hs, ht, List.map_cons]
    rfl

theorem cluster_topic_partition_ids (env : ClusterEnv) (topic_name : String) :
    (cluster_topic_of env topic_name).partition_data.map (fun pt => pt.partition_id) =
      (env.adminPartitions topic_name).map Prod.fst := by
  simp [cluster_topic_of, get_partition_data_fst, List.map_map, Function.comp]

/-! ## Claim theorems -/

/-- Claim C1 (amended): for every resolver call on an existing topic whose
per-partition consumers only yield messages, timeouts or end-of-partition,
the returned offset for each partition equals `offset + 1` of the last
message consumed from that partition whose timestamp, truncated to whole
seconds, is strictly earlier than the target instant, and equals the
default 0 if the partition is empty or no consumed message qualifies; the
scan records `offset + 1` for every such message and never stops early on a
message at or after the target. -/
theorem C1_resolver_returns_last_earlier_offset_plus_one (env : ClusterEnv)
    (topic_name : String) (limitMs : Nat)
    (h1 : env.topicError topic_name = none)
    (h2 : ∀ p ∈ (env.adminPartitions topic_name).map Prod.fst,
      (env.poll topic_name p).all quiet_event = true) :
    get_offsets_closest_to_timestamp env topic_name limitMs =
      Except.ok (((env.adminPartitions topic_name).map Prod.fst).map fun p =>
        (p, spec_offset_for limitMs (consumedMessages 5 (env.poll topic_name p)))) := by
  unfold get_offsets_closest_to_timestamp
  rw [get_cluster_topic_ok env topic_name h1]
  show get_offsets_loop limitMs (env.poll topic_name)
      ((cluster_topic_of env topic_name).partition_data.map fun pt => pt.partition_id) = _
  rw [cluster_topic_partition_ids]
  exact get_offsets_loop_ok _ _ _ h2

/-- Claim C1, counterexample to the unamended claim: in `cEnvC1` the only
record of partition 0 has timestamp 1500 ms, the target instant is 1200 ms,
so no consumed message has a timestamp strictly earlier than the target and
the claimed result is the default 0 (`spec_offset_strict`); the code still
returns `offset + 1 = 1` because it truncates the record timestamp to whole
seconds (1000 ms < 1200 ms) before comparing. -/
theorem C1_counterexample_subsecond_target :
    get_offsets_closest_to_timestamp cEnvC1 "topic" 1200 = Except.ok [(0, 1)] ∧
    spec_offset_strict 1200 (consumedMessages 5 (cEnvC1.poll "topic" 0)) = 0 ∧
    (1 : Nat) ≠ spec_offset_strict 1200 (consumedMessages 5 (cEnvC1.poll "topic" 0)) := by
  refine ⟨rfl, rfl, ?_⟩
  decide

/-- Witness for C1: the amended theorem applied to the concrete
two-partition environment `wEnvC1` at target instant 20000 ms. -/
theorem C1_resolver_returns_last_earlier_offset_plus_one_witness :
    get_offsets_closest_to_timestamp wEnvC1 "t" 20000 = Except.ok [(0, 1), (1, 0)] := by
  rw [C1_resolver_returns_last_earlier_offset_plus_one wEnvC1 "t" 20000 rfl (by decide)]
  rfl

/-- Claim C2: the offset scan never raises for a quiet partition — every
outcome stream made of messages, consume timeouts and end-of-partition
signals yields a normal result; five timeouts exhaust the retry budget
(initial value 5) and stop the scan normally whatever would follow; an
end-of-partition signal stops the scan normally. -/
theorem C2_scan_never_raises_for_quiet_partition (limitMs retry acc : Nat)
    (events rest : List (Except EsqueError Message)) :
    (events.all quiet_event = true → (scanPartition limitMs retry acc events).isOk = true) ∧
    scanPartition limitMs 5 acc
      (List.replicate 5 (Except.error EsqueError.messageEmpty) ++ rest) = Except.ok acc ∧
    scanPartition limitMs retry acc
      (Except.error EsqueError.endOfPartitionReached :: rest) = Except.ok acc := by
  refine ⟨?_, rfl, rfl⟩
  intro h
  rw [scan_eq_fold_consumed limitMs events retry acc h]
  rfl

/-- Witness for C2: a concrete quiet outcome stream with a timeout, a
message and an end-of-partition signal. -/
theorem C2_scan_never_raises_for_quiet_partition_witness :
    (scanPartition 1000 5 0 [Except.error EsqueError.messageEmpty, Except.ok ⟨0, 0⟩,
      Except.error EsqueError.endOfPartitionReached]).isOk = true :=
  (C2_scan_never_raises_for_quiet_partition 1000 5 0
    [Except.error EsqueError.messageEmpty, Except.ok ⟨0, 0⟩,
      Except.error EsqueError.endOfPartitionReached] []).1 (by decide)

/-- Claim C10: the retry budget of 5 is decremented on every consume
timeout and never replenished by successfully consumed messages: however
the five timeouts are interleaved with message groups `g1` … `g5`, the scan
stops at the fifth timeout overall (whatever would follow is never
examined) and returns the recording over exactly the messages consumed
before it. -/
theorem C10_retry_budget_never_replenished (limitMs : Nat)
    (g1 g2 g3 g4 g5 : List Message) (rest : List (Except EsqueError Message)) :
    scanPartition limitMs 5 0
      (g1.map Except.ok ++ Except.error EsqueError.messageEmpty ::
       (g2.map Except.ok ++ Except.error EsqueError.messageEmpty ::
        (g3.map Except.ok ++ Except.error EsqueError.messageEmpty ::
         (g4.map Except.ok ++ Except.error EsqueError.messageEmpty ::
          (g5.map Except.ok ++ Except.error EsqueError.messageEmpty :: rest))))) =
      Except.ok (spec_offset_for limitMs (g1 ++ g2 ++ g3 ++ g4 ++ g5)) := by
  rw [scan_append_msgs, scan_after_empty_5, scan_append_msgs, scan_after_empty_4,
    scan_append_msgs, scan_after_empty_3, scan_append_msgs, scan_after_empty_2,
    scan_append_msgs, scan_after_empty_1, spec_offset_for_eq_foldl,
    List.foldl_append, List.foldl_append, List.foldl_append, List.foldl_append]

/-- Claim C3: when building a cluster snapshot, for each partition id in
the admin metadata the code consumes exactly the record at offset
`high - 1` when `high > low` — the consume log lists precisely the pairs
`(high - 1, pid)` of the non-empty partitions — and that record's
timestamp (milliseconds since epoch) becomes the partition's latest-record
timestamp, while an empty partition's latest-timestamp field is left
absent. -/
theorem C3_partition_data_consumes_exactly_last_record
    (parts : List (Nat × PartitionMeta)) (low high : Nat → Nat)
    (consume : Nat → Nat → Message) :
    (get_partition_data parts low high consume).1 =
      (parts.map fun pm =>
        Partition.mk pm.1 (low pm.1) (high pm.1) pm.2.isrs pm.2.leader pm.2.replicas
          (if high pm.1 > low pm.1 then some ((consume (high pm.1 - 1) pm.1).timestamp)
           else none)) ∧
    (get_partition_data parts low high consume).2 =
      (parts.filter fun pm => decide (high pm.1 > low pm.1)).map
        fun pm => (high pm.1 - 1, pm.1) :=
  ⟨get_partition_data_fst low high consume parts, get_partition_data_snd low high consume parts⟩

/-- Claim C4: every mutating operation — `create_topics`, `alter_configs`,
`delete_topic` — runs inside `invalidate_cache_after`, so the process-local
cluster-metadata cache is invalid when the call returns, on every exit
path (whatever the broker outcomes), and the error the operation body
surfaces (broker-reported failure or completion timeout) is passed through
to the caller unchanged, never swallowed. -/
theorem C4_mutations_invalidate_cache_and_surface_errors
    (cfg : EsqueConfig) (cbroker : NewTopic → FutureOutcome)
    (abroker : ConfigResource → FutureOutcome) (dbroker : String → FutureOutcome)
    (topics : List Topic) (t : Topic) :
    ((create_topics cfg cbroker topics).2 = false ∧
      (create_topics cfg cbroker topics).1.2 = (create_topics_inner cfg cbroker topics).2) ∧
    ((alter_configs abroker topics).2 = false ∧
      (alter_configs abroker topics).1.2 = (alter_configs_inner abroker topics).2) ∧
    ((delete_topic dbroker t).2 = false ∧
      (delete_topic dbroker t).1.2 = (delete_topic_inner dbroker t).2) :=
  ⟨⟨rfl, rfl⟩, ⟨rfl, rfl⟩, ⟨rfl, rfl⟩⟩

theorem create_topics_inner_error (cfg : EsqueConfig) (broker : NewTopic → FutureOutcome) :
    ∀ (topics : List Topic),
      (create_topics_inner cfg broker topics).2 = first_create_error cfg broker topics := by
  intro topics
  induction topics with
  | nil => rfl
  | cons t ts ih =>
    cases he : ensure_kafka_future_done (broker (toNewTopic cfg t)) with
    | none => simp [create_topics_inner, first_create_error, he, ih]
    | some e => simp [create_topics_inner, first_create_error, he]

theorem create_topics_inner_requests (cfg : EsqueConfig) (broker : NewTopic → FutureOutcome) :
    ∀ (topics : List Topic),
      (create_topics_inner cfg broker topics).2 = none →
      (create_topics_inner cfg broker topics).1 = topics.map (toNewTopic cfg) := by
  intro topics
  induction topics with
  | nil => intro _; rfl
  | cons t ts ih =>
    intro h
    cases he : ensure_kafka_future_done (broker (toNewTopic cfg t)) with
    | none =>
      simp only [create_topics_inner, he] at h ⊢
      rw [List.map_cons, ih h]
    | some e => simp [create_topics_inner, he] at h

/-- Claim C7: for every topic passed to `create_topics` with
`num_partitions` (respectively `replication_factor`) unspecified, the
submitted create request uses the configured default partition count
(respectively default replication factor); the call blocks on each create
operation's completion future and surfaces the broker's error — the first
failing future's error, in submission order — when creation failed, and
when no create failed the submitted requests are exactly the default-filled
translations of the given topics. -/
theorem C7_create_topics_fills_defaults_and_surfaces_error
    (cfg : EsqueConfig) (broker : NewTopic → FutureOutcome) (t : Topic)
    (topics : List Topic) :
    (t.num_partitions = none →
      (toNewTopic cfg t).num_partitions = cfg.default_num_partitions) ∧
    (t.replication_factor = none →
      (toNewTopic cfg t).replication_factor = cfg.default_replication_factor) ∧
    (create_topics cfg broker topics).1.2 = first_create_error cfg broker topics ∧
    ((create_topics cfg broker topics).1.2 = none →
      (create_topics cfg broker topics).1.1 = topics.map (toNewTopic cfg)) := by
  refine ⟨?_, ?_, ?_, ?_⟩
  · intro h; simp [toNewTopic, h]
  · intro h; simp [toNewTopic, h]
  · exact create_topics_inner_error cfg broker topics
  · exact create_topics_inner_requests cfg broker topics

/-- Witness for C7: a topic declared with neither count set is created
with the configured defaults (3 partitions, replication factor 2), and the
submitted request list for a succeeding broker is the default-filled
translation. -/
theorem C7_create_topics_fills_defaults_and_surfaces_error_witness :
    (toNewTopic ⟨3, 2⟩ (mk_local_topic "a")).num_partitions = 3 ∧
    (toNewTopic ⟨3, 2⟩ (mk_local_topic "a")).replication_factor = 2 ∧
    (create_topics ⟨3, 2⟩ (fun _ => FutureOutcome.success) [mk_local_topic "a"]).1.1 =
      [toNewTopic ⟨3, 2⟩ (mk_local_topic "a")] := by
  have h := C7_create_topics_fills_defaults_and_surfaces_error ⟨3, 2⟩
    (fun _ => FutureOutcome.success) (mk_local_topic "a") [mk_local_topic "a"]
  exact ⟨h.1 rfl, h.2.1 rfl, h.2.2.2 rfl⟩

/-- Claim C8: when the admin metadata lookup reports an error for a topic
name, every operation that fetches that topic's cluster state —
`get_cluster_topic`, `update_from_cluster`, and through them
`diff_with_cluster` and `get_offsets_closest_to_timestamp` — fails
immediately with `TopicNotFoundError` (the single metadata lookup is not
retried: the embedding performs exactly one `topicError` consultation per
fetch). -/
theorem C8_missing_topic_surfaces_topic_not_found (env : ClusterEnv)
    (topic_name : String) (code : Nat) (limitMs : Nat) (t lt : Topic)
    (hname : t.name = topic_name) (hlname : lt.name = topic_name)
    (hlocal : lt.is_only_local = true)
    (h : env.topicError topic_name = some code) :
    get_cluster_topic env topic_name = Except.error EsqueError.topicNotFound ∧
    update_from_cluster env t = Except.error EsqueError.topicNotFound ∧
    diff_with_cluster env lt = Except.error EsqueError.topicNotFound ∧
    get_offsets_closest_to_timestamp env topic_name limitMs =
      Except.error EsqueError.topicNotFound := by
  refine ⟨get_cluster_topic_notfound env topic_name code h, ?_, ?_, ?_⟩
  · unfold update_from_cluster get_client_topic
    rw [hname, h]
    rfl
  · unfold diff_with_cluster
    rw [hlocal, if_pos rfl, hlname, get_cluster_topic_notfound env topic_name code h]
    rfl
  · unfold get_offsets_closest_to_timestamp
    rw [get_cluster_topic_notfound env topic_name code h]
    rfl

/-- Witness for C8: in `wEnvC8` (admin metadata reports error code 3 for
every name) the fetching operations all fail with `TopicNotFoundError`. -/
theorem C8_missing_topic_surfaces_topic_not_found_witness :
    get_cluster_topic wEnvC8 "t" = Except.error EsqueError.topicNotFound ∧
    diff_with_cluster wEnvC8 (mk_local_topic "t") = Except.error EsqueError.topicNotFound ∧
    get_offsets_closest_to_timestamp wEnvC8 "t" 0 = Except.error EsqueError.topicNotFound := by
  have h := C8_missing_topic_surfaces_topic_not_found wEnvC8 "t" 3 0
    (mk_local_topic "t") (mk_local_topic "t") rfl rfl rfl rfl
  exact ⟨h.1, h.2.2.1, h.2.2.2⟩

/-- Claim C9: `diff_with_cluster` requires a local-only argument: on a
cluster-sourced topic (`is_only_local = false`) it fails with the
assertion error before any cluster access (the result does not depend on
the cluster environment at all), and under the precondition
`is_only_local = true` the assertion-failure branch is never taken. -/
theorem C9_diff_with_cluster_asserts_local_only (env env2 : ClusterEnv) (lt : Topic) :
    (lt.is_only_local = false →
      diff_with_cluster env lt = Except.error EsqueError.assertionError ∧
      diff_with_cluster env lt = diff_with_cluster env2 lt) ∧
    (lt.is_only_local = true →
      diff_with_cluster env lt ≠ Except.error EsqueError.assertionError) := by
  constructor
  · intro h
    unfold diff_with_cluster
    rw [h]
    exact ⟨rfl, rfl⟩
  · intro h
    unfold diff_with_cluster
    rw [h, if_pos rfl]
    cases he : env.topicError lt.name with
    | none =>
      rw [get_cluster_topic_ok env lt.name he]
      simp [Except.map]
    | some c =>
      rw [get_cluster_topic_notfound env lt.name c he]
      simp [Except.map]

/-- Witness for C9: a cluster-sourced topic makes the diff fail with the
assertion error whatever the environment, and a local-only topic never
hits that branch. -/
theorem C9_diff_with_cluster_asserts_local_only_witness :
    (diff_with_cluster wEnvC8 wTopicC9 = Except.error EsqueError.assertionError ∧
      diff_with_cluster wEnvC8 wTopicC9 = diff_with_cluster wEnvC5 wTopicC9) ∧
    diff_with_cluster wEnvC5 (mk_local_topic "t") ≠ Except.error EsqueError.assertionError :=
  ⟨(C9_diff_with_cluster_asserts_local_only wEnvC8 wEnvC5 wTopicC9).1 rfl,
   (C9_diff_with_cluster_asserts_local_only wEnvC5 wEnvC8 (mk_local_topic "t")).2 rfl⟩

/-! ## Helper lemmas about the diff engine -/

theorem set_diff_append (d : List (String × PyVal × PyVal)) (field : String)
    (oldv newv : PyVal) :
    set_diff d field oldv newv =
      d ++ (if oldv = newv then [] else [(field, oldv, newv)]) := by
  unfold set_diff
  split
  · simp
  · rfl

theorem foldl_set_diff (lcfg : List (String × String)) :
    ∀ (cfg : List (String × String)) (acc : List (String × PyVal × PyVal)),
      List.foldl
        (fun a kv => set_diff a kv.1 (PyVal.vstr kv.2) (optStrVal (List.lookup kv.1 lcfg)))
        acc cfg =
      acc ++ (cfg.map fun kv =>
        (kv.1, PyVal.vstr kv.2, optStrVal (List.lookup kv.1 lcfg))).filter differs := by
  intro cfg
  induction cfg with
  | nil => intro acc; simp
  | cons kv rest ih =>
    intro acc
    rw [List.foldl_cons, ih, set_diff_append, List.map_cons, List.filter_cons]
    by_cases he : PyVal.vstr kv.2 = optStrVal (List.lookup kv.1 lcfg)
    · simp [differs, he]
    · simp [differs, he]

theorem diff_fields_eq_filter (ct lt : Topic) :
    diff_fields ct lt = (diff_field_triples ct lt).filter differs := by
  unfold diff_fields diff_field_triples
  rw [foldl_set_diff lt.config ct.config, set_diff_append, set_diff_append,
    List.filter_cons, List.filter_cons]
  by_cases h1 : optNatVal ct.num_partitions = optNatVal lt.num_partitions <;>
    by_cases h2 : optNatVal ct.replication_factor = optNatVal lt.replication_factor <;>
    simp [differs, h1, h2]

theorem filter_no_diff (lcfg : List (String × String)) (cfg : List (String × String))
    (h : ∀ kv ∈ cfg, List.lookup kv.1 lcfg = some kv.2) :
    (cfg.map fun kv => (kv.1, PyVal.vstr kv.2, optStrVal (List.lookup kv.1 lcfg))).filter
      differs = [] := by
  rw [List.filter_eq_nil_iff]
  intro e he
  rw [List.mem_map] at he
  obtain ⟨kv, hkv, rfl⟩ := he
  simp [differs, h kv hkv, optStrVal]

theorem filter_single_key :
    ∀ (cfg lcfg : List (String × String)) (k v v2 : String),
      (cfg.map Prod.fst).Nodup → (k, v) ∈ cfg → List.lookup k lcfg = some v2 → v ≠ v2 →
      (∀ kv ∈ cfg, kv.1 ≠ k → List.lookup kv.1 lcfg = some kv.2) →
      (cfg.map fun kv => (kv.1, PyVal.vstr kv.2, optStrVal (List.lookup kv.1 lcfg))).filter
        differs = [(k, PyVal.vstr v, PyVal.vstr v2)] := by
  intro cfg
  induction cfg with
  | nil =>
    intro lcfg k v v2 _ hm
    cases hm
  | cons kv rest ih =>
    intro lcfg k v v2 hnd hm hlook hne hoth
    rw [List.map_cons, List.nodup_cons] at hnd
    by_cases hk : kv.1 = k
    · have hknotin : k ∉ rest.map Prod.fst := hk ▸ hnd.1
      have hv : kv.2 = v := by
        rcases List.mem_cons.mp hm with h1 | h2
        · rw [← h1]
        · exact absurd (List.mem_map_of_mem Prod.fst h2) hknotin
      have htail : (rest.map fun kv2 =>
          (kv2.1, PyVal.vstr kv2.2, optStrVal (List.lookup kv2.1 lcfg))).filter differs = [] := by
        refine filter_no_diff lcfg rest fun kv2 h2 => ?_
        have hne2 : kv2.1 ≠ k := by
          intro hcontra
          exact hknotin (hcontra ▸ List.mem_map_of_mem Prod.fst h2)
        exact hoth kv2 (List.mem_cons_of_mem kv h2) hne2
      rw [List.map_cons, List.filter_cons, htail]
      rw [hk, hv, hlook]
      simp [differs, optStrVal, hne]
    · have hlk : List.lookup kv.1 lcfg = some kv.2 :=
        hoth kv (List.mem_cons_self kv rest) hk
      have hm2 : (k, v) ∈ rest := by
        rcases List.mem_cons.mp hm with h1 | h2
        · exact absurd (congrArg Prod.fst h1).symm hk
        · exact h2
      rw [List.map_cons, List.filter_cons, hlk]
      have hhead : differs (kv.1, PyVal.vstr kv.2, optStrVal (some kv.2)) = false := by
        simp [differs, optStrVal]
      rw [hhead]
      simp only [Bool.false_eq_true, if_false]
      exact ih lcfg k v v2 hnd.2 hm2 hlook hne
        fun kv2 h2 hne2 => hoth kv2 (List.mem_cons_of_mem kv h2) hne2

/-- Claim C5: under the local-only precondition and for an existing topic,
`diff_with_cluster` compares exactly `num_partitions`,
`replication_factor` and every key present in the cluster topic's
configuration (a key missing locally compares as unset), and the resulting
diff consists of precisely the inspected triples whose cluster and local
values differ; in particular a local topic identical to its cluster
counterpart yields an empty diff, and changing a single configuration key
yields a diff holding exactly that key with its (cluster value, local
value) pair. -/
theorem C5_diff_contains_exactly_differing_fields (env : ClusterEnv) (lt : Topic)
    (hl : lt.is_only_local = true) (he : env.topicError lt.name = none) :
    diff_with_cluster env lt =
      Except.ok ((diff_field_triples (cluster_topic_of env lt.name) lt).filter differs) ∧
    (lt.num_partitions = (cluster_topic_of env lt.name).num_partitions →
      lt.replication_factor = (cluster_topic_of env lt.name).replication_factor →
      (∀ k v, (k, v) ∈ (cluster_topic_of env lt.name).config →
        List.lookup k lt.config = some v) →
      diff_with_cluster env lt = Except.ok []) ∧
    (∀ k v v2,
      lt.num_partitions = (cluster_topic_of env lt.name).num_partitions →
      lt.replication_factor = (cluster_topic_of env lt.name).replication_factor →
      ((cluster_topic_of env lt.name).config.map Prod.fst).Nodup →
      (k, v) ∈ (cluster_topic_of env lt.name).config →
      List.lookup k lt.config = some v2 → v ≠ v2 →
      (∀ kv ∈ (cluster_topic_of env lt.name).config, kv.1 ≠ k →
        List.lookup kv.1 lt.config = some kv.2) →
      diff_with_cluster env lt = Except.ok [(k, PyVal.vstr v, PyVal.vstr v2)]) := by
  have ha : diff_with_cluster env lt =
      Except.ok ((diff_field_triples (cluster_topic_of env lt.name) lt).filter differs) := by
    unfold diff_with_cluster
    rw [hl, if_pos rfl, get_cluster_topic_ok env lt.name he]
    show Except.ok (diff_fields (cluster_topic_of env lt.name) lt) = _
    rw [diff_fields_eq_filter]
  refine ⟨ha, ?_, ?_⟩
  · intro h1 h2 h3
    rw [ha]
    unfold diff_field_triples
    rw [List.filter_cons, List.filter_cons]
    have d1 : differs ("num_partitions", optNatVal (cluster_topic_of env lt.name).num_partitions,
        optNatVal lt.num_partitions) = false := by
      simp [differs, h1]
    have d2 : differs ("replication_factor",
        optNatVal (cluster_topic_of env lt.name).replication_factor,
        optNatVal lt.replication_factor) = false := by
      simp [differs, h2]
    rw [d1, d2]
    simp only [Bool.false_eq_true, if_false]
    rw [filter_no_diff lt.config (cluster_topic_of env lt.name).config
      fun kv hkv => h3 kv.1 kv.2 hkv]
  · intro k v v2 h1 h2 hnodup hmem hlook hvne hoth
    rw [ha]
    unfold diff_field_triples
    rw [List.filter_cons, List.filter_cons]
    have d1 : differs ("num_partitions", optNatVal (cluster_topic_of env lt.name).num_partitions,
        optNatVal lt.num_partitions) = false := by
      simp [differs, h1]
    have d2 : differs ("replication_factor",
        optNatVal (cluster_topic_of env lt.name).replication_factor,
        optNatVal lt.replication_factor) = false := by
      simp [differs, h2]
    rw [d1, d2]
    simp only [Bool.false_eq_true, if_false]
    rw [filter_single_key (cluster_topic_of env lt.name).config lt.config k v v2
      hnodup hmem hlook hvne hoth]

/-- Witness for C5: diffing `wLocalC5` (which changes only
`cleanup.policy` from `delete` to `compact`) against its cluster
counterpart in `wEnvC5` yields exactly that key with the (cluster, local)
pair. -/
theorem C5_diff_contains_exactly_differing_fields_witness :
    diff_with_cluster wEnvC5 wLocalC5 =
      Except.ok [("cleanup.policy", PyVal.vstr "delete", PyVal.vstr "compact")] := by
  have h := C5_diff_contains_exactly_differing_fields wEnvC5 wLocalC5 rfl rfl
  exact h.2.2 "cleanup.policy" "delete" "compact" (by decide) (by decide) (by decide)
    (by decide) (by decide) (by decide) (by decide)

/-- Claim C6: `list_topics` applies its filters (and sorting) to the
locally listed names before any per-topic cluster fetch — the returned
objects are exactly the filtered names mapped through the chosen fetch, so
no snapshot is built for a filtered-out name; with `hide_internal = true`
no returned name starts with the reserved internal prefix; with a
non-empty search string the surviving names are exactly the listed names
matching the pattern. -/
theorem C6_list_topics_filters_before_fetch {α : Type} (allNames : List String)
    (sp : Option String) (pat : String) (sortb hideb gto : Bool)
    (rmatch : String → String → Bool) (fc fl : String → α) :
    list_topics allNames sp sortb hideb rmatch gto fc fl =
      (list_topic_names allNames sp sortb hideb rmatch).map (if gto then fc else fl) ∧
    (hideb = true → ∀ n ∈ list_topic_names allNames sp sortb hideb rmatch,
      n.startsWith "__" = false) ∧
    (pat ≠ "" → ∀ n, (n ∈ list_topic_names allNames (some pat) sortb false rmatch ↔
      (n ∈ allNames ∧ rmatch pat n = true))) := by
  refine ⟨?_, ?_, ?_⟩
  · cases gto <;> rfl
  · intro hh n hn
    unfold list_topic_names at hn
    rw [hh] at hn
    cases sortb <;> simp [List.mem_mergeSort, List.mem_filter, Bool.not_eq_true'] at hn <;>
      exact hn.2
  · intro hp n
    unfold list_topic_names
    cases sortb <;> simp [hp, List.mem_mergeSort, List.mem_filter]

/-- Witness for C6: with pattern `a` (prefix matcher) the survivor set is
characterised exactly, and with `hide_internal = true` a surviving name
does not carry the internal prefix. -/
theorem C6_list_topics_filters_before_fetch_witness :
    ("ab" ∈ list_topic_names ["__c", "ab", "b"] (some "a") true false wMatch ↔
      ("ab" ∈ ["__c", "ab", "b"] ∧ wMatch "a" "ab" = true)) ∧
    "b".startsWith "__" = false :=
  ⟨(C6_list_topics_filters_before_fetch (α := String) ["__c", "ab", "b"] (some "a") "a"
      true false true wMatch id id).2.2 (by decide) "ab",
   (C6_list_topics_filters_before_fetch (α := String) ["__c", "ab", "b"] none "x"
      true true true wMatch id id).2.1 rfl "b"
      (by simp [list_topic_names, List.mem_mergeSort]; decide)⟩
